import Mathlib

/-!
Verification of the RunTime_Tracker telemetry service.

The HTTP route layer (`src/routes/apiRoutes.js`) is embedded directly from the
source.  The recorder and query services (`StatsRecorder` / `StatsQuery`) are
not part of the provided sources, so they are modelled from the specification
(sections 3, 4.1, 4.2 and 4.3); every such definition is marked
`Modelled from the spec:` in its doc comment.

Time instants are modelled as natural numbers of seconds since an arbitrary
epoch, local time as an integer shifted by the configured timezone offset.
JavaScript objects used as dictionaries are modelled as association lists.
-/

namespace RTT

/-- First-match association-list lookup, modelling dictionary access. -/
def alookup {α β : Type} [DecidableEq α] : List (α × β) → α → Option β
  | [], _ => none
  | (k, v) :: rest, q => if q = k then some v else alookup rest q

/-- Update-or-append on an association list: the first entry with key `k` is
rewritten through `f`, and `(k, f dflt)` is appended when no entry exists. -/
def updAssoc {α β : Type} [DecidableEq α] : List (α × β) → α → β → (β → β) → List (α × β)
  | [], k, dflt, f => [(k, f dflt)]
  | (k0, v) :: rest, k, dflt, f =>
      if k = k0 then (k0, f v) :: rest else (k0, v) :: updAssoc rest k dflt f

/-- Overwrite-or-insert on an association list (last-write-wins store). -/
def setAssoc {α β : Type} [DecidableEq α] (m : List (α × β)) (k : α) (v : β) : List (α × β) :=
  updAssoc m k v (fun _ => v)

/-- The keys of an association list. -/
def akeys {α β : Type} (m : List (α × β)) : List α := m.map Prod.fst

/-- JavaScript whitespace, as skipped by `trim()` and `parseInt`. -/
def jsWhitespace (c : Char) : Bool :=
  decide (c = ' ' ∨ c = '\t' ∨ c = '\n' ∨ c = '\r' ∨ c = '\x0b' ∨ c = '\x0c')

/-- `trim()` on a character list: drop whitespace at both ends. -/
def trimChars (cs : List Char) : List Char :=
  ((cs.dropWhile jsWhitespace).reverse.dropWhile jsWhitespace).reverse

/-- `toLowerCase()` on a character list. -/
def lowerChars (cs : List Char) : List Char := cs.map Char.toLower

/-- `parseBoolean` from `src/routes/apiRoutes.js`: environment values are
either absent (`undefined`) or strings, so the string branch of the source is
the one that can fire; absent and empty values yield the default.  The
`toLowerCase().trim()` chain is modelled character-wise. -/
def parseBoolean (value : Option String) (defaultValue : Bool) : Bool :=
  match value with
  | none => defaultValue
  | some s =>
      if s = "" then defaultValue
      else
        let str := trimChars (lowerChars s.toList)
        decide (str = "true".toList ∨ str = "1".toList ∨ str = "yes".toList ∨ str = "on".toList)

/-- `isSummaryAllowed` from `src/routes/apiRoutes.js`: any device id other
than the literal `"summary"` is always allowed; `"summary"` is gated on the
`WEB_SUMMARY` environment value (default `false`). -/
def isSummaryAllowed (webSummaryEnv : Option String) (deviceId : String) : Bool :=
  if deviceId ≠ "summary" then true else parseBoolean webSummaryEnv false

/-- Value of a decimal digit character, `none` otherwise. -/
def decVal (c : Char) : Option Nat :=
  if '0' ≤ c ∧ c ≤ '9' then some (c.toNat - '0'.toNat) else none

/-- Value of a hexadecimal digit character, `none` otherwise. -/
def hexVal (c : Char) : Option Nat :=
  if '0' ≤ c ∧ c ≤ '9' then some (c.toNat - '0'.toNat)
  else if 'a' ≤ c ∧ c ≤ 'f' then some (c.toNat - 'a'.toNat + 10)
  else if 'A' ≤ c ∧ c ≤ 'F' then some (c.toNat - 'A'.toNat + 10)
  else none

/-- Accumulate the leading digits of a character list under digit reader `f`
and base `base`, stopping at the first non-digit. -/
def digitsAcc (f : Char → Option Nat) (base : Nat) : List Char → Nat → Nat
  | [], acc => acc
  | c :: cs, acc =>
      match f c with
      | some v => digitsAcc f base cs (acc * base + v)
      | none => acc

/-- Whether the character list starts with a digit under reader `f`. -/
def hasDigit (f : Char → Option Nat) : List Char → Bool
  | [] => false
  | c :: _ => (f c).isSome

/-- JavaScript `parseInt(s)` (no radix argument): skip whitespace, read an
optional sign, switch to base 16 on a `0x`/`0X` prefix, then read the longest
digit prefix; `none` models `NaN` (no digit consumed). -/
def jsParseInt (s : String) : Option Int :=
  let cs0 := s.toList.dropWhile jsWhitespace
  let signAndRest : Int × List Char :=
    match cs0 with
    | '+' :: rest => (1, rest)
    | '-' :: rest => (-1, rest)
    | l => (1, l)
  let sign := signAndRest.1
  let baseAndRest : Nat × (Char → Option Nat) × List Char :=
    match signAndRest.2 with
    | '0' :: 'x' :: rest => (16, hexVal, rest)
    | '0' :: 'X' :: rest => (16, hexVal, rest)
    | l => (10, decVal, l)
  let base := baseAndRest.1
  let f := baseAndRest.2.1
  let cs := baseAndRest.2.2
  if hasDigit f cs then some (sign * (digitsAcc f base cs 0 : Int)) else none

/-- `parseInt(q) || 0` applied to an optional query-string value, as in the
weekly/monthly routes: an absent value or a `NaN` parse yields `0`. -/
def jsOffset (q : Option String) : Int :=
  match q with
  | none => 0
  | some s =>
      match jsParseInt s with
      | none => 0
      | some v => v

/-- `req.query.appName || null`: an absent or empty app filter becomes null. -/
def jsAppName (q : Option String) : Option String :=
  match q with
  | none => none
  | some s => if s = "" then none else some s

/-- JavaScript falsiness of an optional string (`undefined` or `""`). -/
def jsFalsyStr (v : Option String) : Bool :=
  match v with
  | none => true
  | some s => decide (s = "")

/-! ## Data model -/

/-- Per-device battery state (spec section 3, `BatteryState`). -/
structure BatteryState where
  level : Int
  charging : Bool
  observedAt : Nat
deriving DecidableEq, Repr

/-- A raw entry of the per-device recent-event buffer: the submitted app name
(absent on a pure stop), the ingestion time, and the submitted running flag
(absent meaning "not explicitly given"). -/
structure SwitchEntry where
  appName : Option String
  timestamp : Nat
  running : Option Bool
deriving DecidableEq, Repr

/-- A derived usage session (spec section 3, `UsageSession`); `endedAt = none`
means the session is still open. -/
structure Session where
  device : String
  appName : String
  startedAt : Nat
  endedAt : Option Nat
deriving DecidableEq, Repr

/-- Durable per-day counters for one device and one local day
(spec section 3, `DurableCounters`). -/
structure DayStats where
  totalUsage : Nat
  appStats : List (String × Nat)
  hourlyStats : List Nat
  appHourlyStats : List (String × List Nat)
deriving DecidableEq, Repr

/-- The all-zero 24-slot hourly histogram. -/
def zeroH : List Nat := List.replicate 24 0

/-- The all-zero daily statistics value. -/
def zeroStats : DayStats :=
  { totalUsage := 0
  , appStats := []
  , hourlyStats := zeroH
  , appHourlyStats := [] }

/-- The whole recorder state: configuration (timezone offset in hours, buffer
capacity) plus battery store, recent-event buffers, session log and durable
counters keyed by device and local-day index. -/
structure RecorderState where
  tz : Int
  cap : Nat
  battery : List (String × BatteryState)
  buffers : List (String × List SwitchEntry)
  sessions : List Session
  counters : List ((String × Int) × DayStats)
deriving DecidableEq, Repr

/-- The recorder state at startup: empty stores. -/
def initState (tz : Int) (cap : Nat) : RecorderState :=
  { tz := tz, cap := cap, battery := [], buffers := [], sessions := [], counters := [] }

/-! ## Local-time bucketing -/

/-- Local instant for a UTC instant under the configured offset (hours). -/
def localTime (tz : Int) (t : Nat) : Int := (t : Int) + tz * 3600

/-- Local calendar-day index of a local instant. -/
def dayIndex (t : Int) : Int := t.ediv 86400

/-- Local hour-of-day (0..23) of a local instant. -/
def hourIndex (t : Int) : Nat := ((t.emod 86400).ediv 3600).toNat

/-- Local day index of a UTC instant. -/
def localDay (tz : Int) (t : Nat) : Int := dayIndex (localTime tz t)

/-- The first hour boundary strictly after a local instant. -/
def boundaryAfter (t : Int) : Int := (t.ediv 3600 + 1) * 3600

/-- Lookup with zero default in a 24-hour histogram. -/
def hourD (l : List Nat) (i : Nat) : Nat := l.getD i 0

/-- Add `dur` at slot `h` of an hourly histogram, normalising to 24 entries. -/
def bumpHour (l : List Nat) (h dur : Nat) : List Nat :=
  (List.range 24).map (fun i => hourD l i + if i = h then dur else 0)

/-- Add `dur` to key `app` of a per-app duration map. -/
def bumpApp (m : List (String × Nat)) (app : String) (dur : Nat) : List (String × Nat) :=
  updAssoc m app 0 (fun v => v + dur)

/-- Add `dur` at hour `h` of app `app` in a per-app hourly-histogram map. -/
def bumpAppH (m : List (String × List Nat)) (app : String) (h dur : Nat) :
    List (String × List Nat) :=
  updAssoc m app (zeroH) (fun l => bumpHour l h dur)

/-- Modelled from the spec: credit `dur` seconds of app `app` in hour `h` into
one day's counters (total, app map, hourly histogram, app hourly histograms),
as described by the local-day/hour bucketing rule of section 4.2. -/
def bumpStats (x : DayStats) (app : String) (h dur : Nat) : DayStats :=
  { totalUsage := x.totalUsage + dur
  , appStats := bumpApp x.appStats app dur
  , hourlyStats := bumpHour x.hourlyStats h dur
  , appHourlyStats := bumpAppH x.appHourlyStats app h dur }

/-- Element-wise sum of two hourly histograms (24 slots). -/
def addH (x y : List Nat) : List Nat :=
  (List.range 24).map (fun i => hourD x i + hourD y i)

/-- Merge a per-app duration map `b` into `a` by summing matching keys. -/
def mergeApp (a b : List (String × Nat)) : List (String × Nat) :=
  b.foldl (fun m kv => bumpApp m kv.1 kv.2) a

/-- Merge a per-app hourly map `b` into `a`, slot by slot. -/
def mergeAppH (a b : List (String × List Nat)) : List (String × List Nat) :=
  b.foldl (fun m kv => updAssoc m kv.1 (zeroH) (fun old => addH old kv.2)) a

/-- Modelled from the spec: element-wise merge of two daily statistics values
(section 4.3, `dailyStatsAllDevices`: "merges by summing totals, app maps, and
hourly histograms element-wise"). -/
def mergeStats (a b : DayStats) : DayStats :=
  { totalUsage := a.totalUsage + b.totalUsage
  , appStats := mergeApp a.appStats b.appStats
  , hourlyStats := addH a.hourlyStats b.hourlyStats
  , appHourlyStats := mergeAppH a.appHourlyStats b.appHourlyStats }

/-- Modelled from the spec: split the local-time interval `[s, e)` of app
`app` at every local hour (hence also local midnight) boundary, crediting each
sub-interval into its day's counters (section 4.2 bucketing rule).  The fuel
argument dominates the number of boundary steps; a negative or empty interval
credits nothing (negative corrections are clamped to zero). -/
def creditGo (app : String) : Nat → Int → Int → List (Int × DayStats) → List (Int × DayStats)
  | 0, _, _, acc => acc
  | fuel + 1, s, e, acc =>
      if s < e then
        let b := min (boundaryAfter s) e
        creditGo app fuel b e
          (updAssoc acc (dayIndex s) zeroStats
            (fun ds => bumpStats ds app (hourIndex s) (b - s).toNat))
      else acc

/-- Credit the local-time interval `[s, e)` of app `app` into per-day counters. -/
def creditLoop (app : String) (s e : Int) (acc : List (Int × DayStats)) :
    List (Int × DayStats) :=
  creditGo app (e - s).toNat s e acc

/-! ## Session Recorder (modelled from the spec, sections 4.1 and 4.2) -/

/-- Whether session `s` is the open session of device `d`. -/
def isOpenFor (d : String) (s : Session) : Bool :=
  decide (s.device = d ∧ s.endedAt = none)

/-- The open session of device `d`, if any. -/
def findOpen (d : String) (ss : List Session) : Option Session :=
  ss.find? (isOpenFor d)

/-- The number of open sessions of device `d` in the session log. -/
def openCount (d : String) (ss : List Session) : Nat :=
  (ss.filter (isOpenFor d)).length

/-- Close every open session of device `d` at instant `t`. -/
def closeAll (d : String) (t : Nat) (ss : List Session) : List Session :=
  ss.map (fun s => if isOpenFor d s then { s with endedAt := some t } else s)

/-- Fold per-day credits (from `creditLoop`) for device `d` into the durable
counters. -/
def creditDays (d : String) (l : List (Int × DayStats))
    (cs : List ((String × Int) × DayStats)) : List ((String × Int) × DayStats) :=
  l.foldl (fun cs p => updAssoc cs (d, p.1) zeroStats (fun old => mergeStats old p.2)) cs

/-- Modelled from the spec: close device `d`'s open session `os` at `endT`,
crediting its duration into the durable counters split across the local days
and hours it covers (section 4.2, steps 1 and 4). -/
def closeAndCredit (st : RecorderState) (d : String) (os : Session) (endT : Nat) :
    RecorderState :=
  { st with
    sessions := closeAll d endT st.sessions
  , counters :=
      creditDays d
        (creditLoop os.appName (localTime st.tz os.startedAt) (localTime st.tz endT) [])
        st.counters }

/-- Append an entry to a bounded buffer, evicting oldest entries first once
the capacity is exceeded. -/
def pushEntry (cap : Nat) (l : List SwitchEntry) (e : SwitchEntry) : List SwitchEntry :=
  let l2 := l ++ [e]
  if cap < l2.length then l2.drop (l2.length - cap) else l2

/-- Modelled from the spec: `recordBattery(device, level, charging)`
(section 4.1) — levels outside `(0, 100]` are rejected with no state change;
otherwise the device's battery state is overwritten with `observedAt = now`. -/
def recordBattery (d : String) (level : Int) (charging : Bool) (now : Nat)
    (st : RecorderState) : RecorderState :=
  if 0 < level ∧ level ≤ 100 then
    { st with battery := setAssoc st.battery d { level := level, charging := charging, observedAt := now } }
  else st

/-- `getLatestBatteryInfo(device)` — modelled from the spec
(section 4.1, `latestBattery`): the stored battery state, or no data. -/
def getLatestBatteryInfo (d : String) (st : RecorderState) : Option BatteryState :=
  alookup st.battery d

/-- Modelled from the spec: `recordUsage(device, appName, running)`
(section 4.2).  An implied-start event without an app name is rejected with no
state change; otherwise the event is appended to the device's recent-event
buffer and the five-step session state machine is applied. -/
def recordUsage (d : String) (appName : Option String) (running : Option Bool)
    (now : Nat) (st : RecorderState) : RecorderState :=
  if running ≠ some false ∧ (appName = none ∨ appName = some "") then st
  else
    let st1 := { st with buffers := updAssoc st.buffers d [] (fun l => pushEntry st.cap l { appName := appName, timestamp := now, running := running }) }
    if running = some false then
      match findOpen d st1.sessions with
      | some os => if some os.appName = appName then closeAndCredit st1 d os now else st1
      | none => st1
    else
      match findOpen d st1.sessions with
      | none =>
          { st1 with sessions := { device := d, appName := appName.getD "", startedAt := now, endedAt := none } :: st1.sessions }
      | some os =>
          if appName = some os.appName then st1
          else
            let st2 := closeAndCredit st1 d os now
            { st2 with sessions := { device := d, appName := appName.getD "", startedAt := now, endedAt := none } :: st2.sessions }

/-- A recorded ingestion event: a battery sample or an app-state sample. -/
inductive Event where
  | battery (device : String) (level : Int) (charging : Bool) (now : Nat)
  | usage (device : String) (appName : Option String) (running : Option Bool) (now : Nat)
deriving DecidableEq, Repr

/-- The device an event reports for. -/
def eventDevice : Event → String
  | .battery d _ _ _ => d
  | .usage d _ _ _ => d

/-- Apply one ingestion event to the recorder state. -/
def applyEvent (st : RecorderState) : Event → RecorderState
  | .battery d lv ch now => recordBattery d lv ch now st
  | .usage d a r now => recordUsage d a r now st

/-- The recorder state reached from startup by a sequence of events. -/
def replay (tz : Int) (cap : Nat) (evs : List Event) : RecorderState :=
  evs.foldl applyEvent (initState tz cap)

/-! ## Aggregation Query Engine (modelled from the spec, section 4.3) -/

/-- Modelled from the spec: `devices()` — the device ids that have ever
appeared in battery-tracker or session-recorder state. -/
def getDevices (st : RecorderState) : List String :=
  (akeys st.battery ++ akeys st.buffers).dedup

/-- Modelled from the spec: `dailyStats(device, date)` (section 4.3) — that
device's durable counters for the local day of `date`, including the open
session truncated at `now` when `date` falls on the current local day; an
explicit zero-valued result when no data exists. -/
def getDailyStats (st : RecorderState) (d : String) (date : Nat) (now : Nat) : DayStats :=
  let day := localDay st.tz date
  let base := (alookup st.counters (d, day)).getD zeroStats
  if day = localDay st.tz now then
    match findOpen d st.sessions with
    | some os =>
        mergeStats base
          ((alookup (creditLoop os.appName (localTime st.tz os.startedAt) (localTime st.tz now) []) day).getD zeroStats)
    | none => base
  else base

/-- Modelled from the spec: `dailyStatsAllDevices(date)` (section 4.3) —
computes `dailyStats` per known device and merges the results element-wise. -/
def getDailyStatsForAllDevices (st : RecorderState) (date : Nat) (now : Nat) : DayStats :=
  (getDevices st).foldl (fun acc d => mergeStats acc (getDailyStats st d date now)) zeroStats

/-! ## HTTP route handlers (from `src/routes/apiRoutes.js`) -/

/-- The JSON body of a `POST /api/` ingestion request. -/
structure PostBody where
  secret : Option String
  device : Option String
  app_name : Option String
  running : Option Bool
  batteryLevel : Option Int
  isCharging : Option Bool
deriving DecidableEq, Repr

/-- Outcome of the ingestion route: 401, the two 400 rejections, or the
success payload carrying the read-back battery info. -/
inductive PostResult where
  | invalidSecret
  | missingDevice
  | missingAppName
  | ok (batteryInfo : Option BatteryState)
deriving DecidableEq, Repr

/-- The battery block of `router.post('/')` in `src/routes/apiRoutes.js`:
`if (batteryLevel !== undefined && batteryLevel > 0 && batteryLevel <= 100)`
record the sample, otherwise skip it silently. -/
def batteryStep (d : String) (batteryLevel : Option Int) (isCharging : Option Bool)
    (now : Nat) (st : RecorderState) : RecorderState :=
  match batteryLevel with
  | some lv =>
      if 0 < lv ∧ lv ≤ 100 then recordBattery d lv (isCharging = some true) now st else st
  | none => st

/-- `router.post('/')` from `src/routes/apiRoutes.js` (continued): secret
check, device check, battery step, then app-state handling with its 400
validation, then the success payload. -/
def handlePost (secretCfg : String) (now : Nat) (body : PostBody) (st : RecorderState) :
    PostResult × RecorderState :=
  if body.secret ≠ some secretCfg then (.invalidSecret, st)
  else if jsFalsyStr body.device then (.missingDevice, st)
  else
    let d := body.device.getD ""
    let st1 := batteryStep d body.batteryLevel body.isCharging now st
    if body.app_name ≠ none ∨ body.running ≠ none then
      if body.running ≠ some false ∧ jsFalsyStr body.app_name then
        (.missingAppName, st1)
      else
        let st2 := recordUsage d body.app_name body.running now st1
        (.ok (getLatestBatteryInfo d st2), st2)
    else (.ok (getLatestBatteryInfo d st1), st1)

/-- A record of the shape returned by the recent-switches routes. -/
structure RecentEntry where
  appName : Option String
  timestamp : Nat
  running : Bool
deriving DecidableEq, Repr

/-- The buffer stored for a device, empty when the device has none. -/
def bufferOf (st : RecorderState) (d : String) : List SwitchEntry :=
  (alookup st.buffers d).getD []

/-- `router.get('/recent/:deviceId')` from `src/routes/apiRoutes.js`: the raw
buffer mapped to the output shape, with `running: entry.running !== false`;
an empty list when the device has no buffer. -/
def handleRecent (st : RecorderState) (deviceId : String) : List RecentEntry :=
  match alookup st.buffers deviceId with
  | none => []
  | some entries =>
      entries.map (fun e => { appName := e.appName, timestamp := e.timestamp, running := e.running != some false })

/-- Outcome of the daily-stats route: 403, 400 (bad date), or the stats. -/
inductive StatsResult where
  | forbidden
  | invalidDate
  | ok (stats : DayStats)
deriving DecidableEq, Repr

/-- The stats body the daily route responds with: the summary merge for the
`"summary"` sentinel, the single device's stats otherwise, replaced by the
explicit zero structure when the total is zero. -/
def statsResponse (st : RecorderState) (deviceId : String) (date : Nat) (now : Nat) : DayStats :=
  let stats :=
    if deviceId = "summary" then getDailyStatsForAllDevices st date now
    else getDailyStats st deviceId date now
  if stats.totalUsage = 0 then zeroStats else stats

/-- `router.get('/stats/:deviceId')` from `src/routes/apiRoutes.js`: summary
gate first, then date parsing (400 on an unparseable date, current time when
no date is supplied), then the stats computation.  The host's `new Date(...)`
parser is a parameter `parse`; `none` models an `Invalid Date` result. -/
def handleStats (env : Option String) (deviceId : String) (qdate : Option String)
    (parse : String → Option Nat) (now : Nat) (st : RecorderState) : StatsResult :=
  if ¬ isSummaryAllowed env deviceId then .forbidden
  else
    match qdate with
    | some s =>
        match parse s with
        | none => .invalidDate
        | some date => .ok (statsResponse st deviceId date now)
    | none => .ok (statsResponse st deviceId now now)

/-- Outcome of the weekly/monthly routes: 403, or which query runs and with
which app filter and period offset. -/
inductive PeriodResult where
  | forbidden
  | summaryStats (appName : Option String) (offset : Int)
  | deviceStats (deviceId : String) (appName : Option String) (offset : Int)
deriving DecidableEq, Repr

/-- The query dispatched by the weekly/monthly routes once allowed. -/
def periodDispatch (deviceId : String) (qApp : Option String) (off : Int) : PeriodResult :=
  if deviceId = "summary" then .summaryStats (jsAppName qApp) off
  else .deviceStats deviceId (jsAppName qApp) off

/-- `router.get('/weekly/:deviceId')` from `src/routes/apiRoutes.js`: summary
gate, then `parseInt(req.query.weekOffset) || 0` and `req.query.appName ||
null`, then dispatch to the summary or per-device weekly query. -/
def handleWeekly (env : Option String) (deviceId : String) (qOffset qApp : Option String) :
    PeriodResult :=
  if ¬ isSummaryAllowed env deviceId then .forbidden
  else periodDispatch deviceId qApp (jsOffset qOffset)

/-- `router.get('/monthly/:deviceId')` from `src/routes/apiRoutes.js`: same
shape as the weekly route with `monthOffset`. -/
def handleMonthly (env : Option String) (deviceId : String) (qOffset qApp : Option String) :
    PeriodResult :=
  if ¬ isSummaryAllowed env deviceId then .forbidden
  else periodDispatch deviceId qApp (jsOffset qOffset)

/-! ## Association-list lemmas -/

theorem alookup_updAssoc {α β : Type} [DecidableEq α] (m : List (α × β)) (k : α)
    (dflt : β) (f : β → β) (q : α) :
    alookup (updAssoc m k dflt f) q =
      if q = k then some (f ((alookup m k).getD dflt)) else alookup m q := by
  induction m with
  | nil =>
      by_cases h : q = k <;> simp [updAssoc, alookup, h]
  | cons hd tl ih =>
      obtain ⟨k0, v⟩ := hd
      by_cases hk : k = k0
      · subst hk
        by_cases hq : q = k <;> simp [updAssoc, alookup, hq]
      · by_cases hq : q = k0
        · subst hq
          simp [updAssoc, alookup, hk, Ne.symm hk]
        · by_cases hqk : q = k
          · subst hqk
            simp [updAssoc, alookup, hk, hq, ih]
          · simp [updAssoc, alookup, hk, hq, hqk, ih]

theorem alookup_eq_none {α β : Type} [DecidableEq α] (m : List (α × β)) (k : α) :
    alookup m k = none ↔ k ∉ akeys m := by
  induction m with
  | nil => simp [alookup, akeys]
  | cons hd tl ih =>
      obtain ⟨k0, v⟩ := hd
      by_cases h : k = k0 <;> simp [alookup, akeys, h] at ih ⊢
      exact ih

theorem alookup_mem {α β : Type} [DecidableEq α] {m : List (α × β)} {k : α} {v : β}
    (h : alookup m k = some v) : (k, v) ∈ m := by
  induction m with
  | nil => simp [alookup] at h
  | cons hd tl ih =>
      obtain ⟨k0, v0⟩ := hd
      by_cases hk : k = k0
      · subst hk
        simp [alookup] at h
        simp [h]
      · simp [alookup, hk] at h
        simp [ih h]

theorem akeys_updAssoc {α β : Type} [DecidableEq α] (m : List (α × β)) (k : α)
    (dflt : β) (f : β → β) :
    akeys (updAssoc m k dflt f) =
      if (alookup m k).isSome then akeys m else akeys m ++ [k] := by
  induction m with
  | nil => simp [updAssoc, akeys, alookup]
  | cons hd tl ih =>
      obtain ⟨k0, v⟩ := hd
      by_cases hk : k = k0
      · subst hk
        simp [updAssoc, akeys, alookup]
      · simp only [updAssoc, if_neg hk, akeys, List.map_cons, alookup, if_neg hk] at ih ⊢
        rw [ih]
        by_cases hs : (alookup tl k).isSome <;> simp [hs]

theorem nodup_updAssoc {α β : Type} [DecidableEq α] {m : List (α × β)} (k : α)
    (dflt : β) (f : β → β) (h : (akeys m).Nodup) :
    (akeys (updAssoc m k dflt f)).Nodup := by
  rw [akeys_updAssoc]
  by_cases hs : (alookup m k).isSome
  · simp [hs, h]
  · have hnone : alookup m k = none := by
      cases hl : alookup m k <;> simp [hl] at hs ⊢
    have hnm : k ∉ akeys m := (alookup_eq_none m k).mp hnone
    simp [hs, List.nodup_append, h, List.Disjoint]
    intro a ha hak
    exact hnm (hak ▸ ha)

theorem mem_updAssoc_val {α β : Type} [DecidableEq α] {P : β → Prop}
    {m : List (α × β)} {k : α} {dflt : β} {f : β → β}
    (hm : ∀ kv ∈ m, P kv.2) (hd : P (f dflt)) (hf : ∀ v, P v → P (f v)) :
    ∀ kv ∈ updAssoc m k dflt f, P kv.2 := by
  induction m with
  | nil =>
      intro kv hkv
      simp [updAssoc] at hkv
      simp [hkv, hd]
  | cons hd0 tl ih =>
      obtain ⟨k0, v⟩ := hd0
      intro kv hkv
      by_cases hk : k = k0
      · subst hk
        simp [updAssoc] at hkv
        rcases hkv with h1 | h2
        · simp [h1]
          exact hf v (hm (k, v) (by simp))
        · exact hm kv (by simp [h2])
      · simp [updAssoc, hk] at hkv
        rcases hkv with h1 | h2
        · subst h1
          exact hm (k0, v) (by simp)
        · exact ih (fun kv h => hm kv (by simp [h])) kv h2

/-! ## Histogram and per-app map lookup lemmas -/

/-- Per-app duration lookup with zero default. -/
def appD (m : List (String × Nat)) (q : String) : Nat := (alookup m q).getD 0

/-- Per-app hourly lookup with zero default. -/
def appHourD (m : List (String × List Nat)) (q : String) (i : Nat) : Nat :=
  hourD ((alookup m q).getD (zeroH)) i

/-- Sum of the values of all entries of a per-app map matching a key. -/
def esum : List (String × Nat) → String → Nat
  | [], _ => 0
  | (k, v) :: rest, q => (if q = k then v else 0) + esum rest q

/-- Sum over all entries matching a key of one hour slot. -/
def esumH : List (String × List Nat) → String → Nat → Nat
  | [], _, _ => 0
  | (k, hl) :: rest, q, i => (if q = k then hourD hl i else 0) + esumH rest q i

theorem hourD_map_range (f : Nat → Nat) {i : Nat} (h : i < 24) :
    hourD ((List.range 24).map f) i = f i := by
  simp [hourD, List.getD_eq_getElem?_getD, List.getElem?_map, List.getElem?_range, h]

theorem hourD_replicate (i : Nat) : hourD (zeroH) i = 0 := by
  unfold hourD zeroH
  rw [List.getD_eq_getElem?_getD, List.getElem?_replicate]
  split <;> rfl

theorem hourD_addH {i : Nat} (h : i < 24) (x y : List Nat) :
    hourD (addH x y) i = hourD x i + hourD y i := by
  simp [addH, hourD_map_range _ h]

theorem hourD_bumpHour {i : Nat} (h : i < 24) (l : List Nat) (hh dur : Nat) :
    hourD (bumpHour l hh dur) i = hourD l i + if i = hh then dur else 0 := by
  simp [bumpHour, hourD_map_range _ h]

theorem appD_bumpApp (m : List (String × Nat)) (k q : String) (v : Nat) :
    appD (bumpApp m k v) q = appD m q + if q = k then v else 0 := by
  simp only [appD, bumpApp, alookup_updAssoc]
  by_cases h : q = k
  · subst h
    cases hl : alookup m q <;> simp [hl]
  · simp [h]

theorem appD_mergeApp (a b : List (String × Nat)) (q : String) :
    appD (mergeApp a b) q = appD a q + esum b q := by
  induction b generalizing a with
  | nil => simp [mergeApp, esum]
  | cons hd tl ih =>
      obtain ⟨k, v⟩ := hd
      show appD (mergeApp (bumpApp a k v) tl) q = _
      rw [ih, appD_bumpApp]
      simp [esum]
      omega

theorem esum_eq_zero {b : List (String × Nat)} {q : String} (h : q ∉ akeys b) :
    esum b q = 0 := by
  induction b with
  | nil => simp [esum]
  | cons hd tl ih =>
      obtain ⟨k, v⟩ := hd
      simp [akeys] at h
      simp [esum, h.1, ih (by simp [akeys, h.2])]

theorem esum_eq_appD {b : List (String × Nat)} (h : (akeys b).Nodup) (q : String) :
    esum b q = appD b q := by
  induction b with
  | nil => simp [esum, appD, alookup]
  | cons hd tl ih =>
      obtain ⟨k, v⟩ := hd
      simp [akeys] at h
      by_cases hq : q = k
      · subst hq
        simp [esum, appD, alookup, esum_eq_zero (by simpa [akeys] using h.1)]
      · simp [esum, appD, alookup, hq]
        simpa [appD] using ih h.2

theorem appHourD_bumpLike (m : List (String × List Nat)) (k q : String)
    (hl : List Nat) {i : Nat} (h : i < 24) :
    appHourD (updAssoc m k (zeroH) (fun old => addH old hl)) q i =
      appHourD m q i + if q = k then hourD hl i else 0 := by
  simp only [appHourD, alookup_updAssoc]
  by_cases hq : q = k
  · subst hq
    cases hlk : alookup m q <;>
      simp [hlk, hourD_addH h, hourD_replicate]
  · simp [hq]

theorem appHourD_mergeAppH (a b : List (String × List Nat)) (q : String) {i : Nat}
    (h : i < 24) :
    appHourD (mergeAppH a b) q i = appHourD a q i + esumH b q i := by
  induction b generalizing a with
  | nil => simp [mergeAppH, esumH]
  | cons hd tl ih =>
      obtain ⟨k, hl⟩ := hd
      show appHourD (mergeAppH (updAssoc a k (zeroH) (fun old => addH old hl)) tl) q i = _
      rw [ih, appHourD_bumpLike a k q hl h]
      simp [esumH]
      omega

theorem esumH_eq_zero {b : List (String × List Nat)} {q : String} (h : q ∉ akeys b)
    (i : Nat) : esumH b q i = 0 := by
  induction b with
  | nil => simp [esumH]
  | cons hd tl ih =>
      obtain ⟨k, hl⟩ := hd
      simp [akeys] at h
      simp [esumH, h.1, ih (by simp [akeys, h.2])]

theorem esumH_eq_appHourD {b : List (String × List Nat)} (h : (akeys b).Nodup)
    (q : String) (i : Nat) : esumH b q i = appHourD b q i := by
  induction b with
  | nil => simp [esumH, appHourD, alookup, hourD_replicate]

  | cons hd tl ih =>
      obtain ⟨k, hl⟩ := hd
      simp [akeys] at h
      by_cases hq : q = k
      · subst hq
        simp [esumH, appHourD, alookup, esumH_eq_zero (by simpa [akeys] using h.1)]
      · simp only [esumH, appHourD, alookup, if_neg hq, if_neg (by simp [hq] : ¬ q = k)]
        simp [hq]
        simpa [appHourD] using ih h.2

/-! ## Well-formedness of daily statistics (no duplicate map keys) -/

/-- A daily-statistics value is well-formed when its per-app maps carry no
duplicate keys; every value the engine builds satisfies this. -/
def statsWF (x : DayStats) : Prop :=
  (akeys x.appStats).Nodup ∧ (akeys x.appHourlyStats).Nodup

theorem zeroStats_wf : statsWF zeroStats := by
  constructor <;> simp [zeroStats, akeys]

theorem nodup_mergeApp {a : List (String × Nat)} (b : List (String × Nat))
    (h : (akeys a).Nodup) : (akeys (mergeApp a b)).Nodup := by
  induction b generalizing a with
  | nil => exact h
  | cons hd tl ih =>
      exact ih (nodup_updAssoc _ _ _ h)

theorem nodup_mergeAppH {a : List (String × List Nat)} (b : List (String × List Nat))
    (h : (akeys a).Nodup) : (akeys (mergeAppH a b)).Nodup := by
  induction b generalizing a with
  | nil => exact h
  | cons hd tl ih =>
      exact ih (nodup_updAssoc _ _ _ h)

theorem mergeStats_wf {a : DayStats} (b : DayStats) (h : statsWF a) :
    statsWF (mergeStats a b) :=
  ⟨nodup_mergeApp _ h.1, nodup_mergeAppH _ h.2⟩

theorem bumpStats_wf {x : DayStats} (app : String) (hh dur : Nat) (h : statsWF x) :
    statsWF (bumpStats x app hh dur) :=
  ⟨nodup_updAssoc _ _ _ h.1, nodup_updAssoc _ _ _ h.2⟩

/-! ## Element-wise reading of the merge -/

theorem mergeStats_total (a b : DayStats) :
    (mergeStats a b).totalUsage = a.totalUsage + b.totalUsage := rfl

theorem mergeStats_appD (a b : DayStats) (hb : statsWF b) (q : String) :
    appD (mergeStats a b).appStats q = appD a.appStats q + appD b.appStats q := by
  show appD (mergeApp a.appStats b.appStats) q = _
  rw [appD_mergeApp, esum_eq_appD hb.1]

theorem mergeStats_hourD (a b : DayStats) {i : Nat} (h : i < 24) :
    hourD (mergeStats a b).hourlyStats i = hourD a.hourlyStats i + hourD b.hourlyStats i := by
  show hourD (addH a.hourlyStats b.hourlyStats) i = _
  exact hourD_addH h _ _

theorem mergeStats_appHourD (a b : DayStats) (hb : statsWF b) (q : String) {i : Nat}
    (h : i < 24) :
    appHourD (mergeStats a b).appHourlyStats q i =
      appHourD a.appHourlyStats q i + appHourD b.appHourlyStats q i := by
  show appHourD (mergeAppH a.appHourlyStats b.appHourlyStats) q i = _
  rw [appHourD_mergeAppH _ _ _ h, esumH_eq_appHourD hb.2]

theorem zeroStats_appD (q : String) : appD zeroStats.appStats q = 0 := by
  simp [zeroStats, appD, alookup]

theorem zeroStats_hourD (i : Nat) : hourD zeroStats.hourlyStats i = 0 := by
  simp only [zeroStats]
  exact hourD_replicate i

theorem zeroStats_appHourD (q : String) (i : Nat) :
    appHourD zeroStats.appHourlyStats q i = 0 := by
  simp only [zeroStats, appHourD, alookup, Option.getD_none]
  exact hourD_replicate i

/-- The element-wise reading of a merge fold: folding `mergeStats` over a list
of well-formed per-device results sums every observable slot. -/
theorem foldMerge_observables (g : String → DayStats) (devs : List String)
    (acc : DayStats) (hwf : ∀ d ∈ devs, statsWF (g d)) :
    (devs.foldl (fun a d => mergeStats a (g d)) acc).totalUsage
        = acc.totalUsage + (devs.map (fun d => (g d).totalUsage)).sum
    ∧ (∀ q, appD (devs.foldl (fun a d => mergeStats a (g d)) acc).appStats q
        = appD acc.appStats q + (devs.map (fun d => appD (g d).appStats q)).sum)
    ∧ (∀ i, i < 24 → hourD (devs.foldl (fun a d => mergeStats a (g d)) acc).hourlyStats i
        = hourD acc.hourlyStats i + (devs.map (fun d => hourD (g d).hourlyStats i)).sum)
    ∧ (∀ q i, i < 24 →
        appHourD (devs.foldl (fun a d => mergeStats a (g d)) acc).appHourlyStats q i
        = appHourD acc.appHourlyStats q i
            + (devs.map (fun d => appHourD (g d).appHourlyStats q i)).sum) := by
  induction devs generalizing acc with
  | nil => simp
  | cons d tl ih =>
      have hd : statsWF (g d) := hwf d (by simp)
      have htl : ∀ d0 ∈ tl, statsWF (g d0) := fun d0 h0 => hwf d0 (by simp [h0])
      obtain ⟨iht, iha, ihh, ihah⟩ := ih (mergeStats acc (g d)) htl
      refine ⟨?_, ?_, ?_, ?_⟩
      · simp only [List.foldl_cons, List.map_cons, List.sum_cons]
        rw [iht, mergeStats_total]
        omega
      · intro q
        simp only [List.foldl_cons, List.map_cons, List.sum_cons]
        rw [iha q, mergeStats_appD _ _ hd]
        omega
      · intro i hi
        simp only [List.foldl_cons, List.map_cons, List.sum_cons]
        rw [ihh i hi, mergeStats_hourD _ _ hi]
        omega
      · intro q i hi
        simp only [List.foldl_cons, List.map_cons, List.sum_cons]
        rw [ihah q i hi, mergeStats_appHourD _ _ hd _ hi]
        omega

/-! ## Invariants of the recorder state over replayed event sequences -/

/-- Every durable counter entry is well-formed. -/
def countersWF (st : RecorderState) : Prop :=
  ∀ kv ∈ st.counters, statsWF kv.2

theorem creditDays_wf {cs : List ((String × Int) × DayStats)} (d : String)
    (l : List (Int × DayStats)) (h : ∀ kv ∈ cs, statsWF kv.2) :
    ∀ kv ∈ creditDays d l cs, statsWF kv.2 := by
  induction l generalizing cs with
  | nil => exact h
  | cons p tl ih =>
      exact ih (mem_updAssoc_val h (mergeStats_wf _ zeroStats_wf) (fun v hv => mergeStats_wf _ hv))

theorem recordBattery_counters (d : String) (lv : Int) (ch : Bool) (now : Nat)
    (st : RecorderState) : (recordBattery d lv ch now st).counters = st.counters := by
  unfold recordBattery
  split <;> rfl

theorem recordUsage_countersWF (d : String) (a : Option String) (r : Option Bool)
    (now : Nat) {st : RecorderState} (h : countersWF st) :
    countersWF (recordUsage d a r now st) := by
  unfold countersWF at h ⊢
  unfold recordUsage
  dsimp only
  split
  · exact h
  · split
    · split
      · split
        · exact fun kv hkv => creditDays_wf _ _ h kv hkv
        · exact h
      · exact h
    · split
      · exact h
      · split
        · exact h
        · exact fun kv hkv => creditDays_wf _ _ h kv hkv

theorem applyEvent_countersWF {st : RecorderState} (e : Event) (h : countersWF st) :
    countersWF (applyEvent st e) := by
  cases e with
  | battery d lv ch now =>
      intro kv hkv
      rw [applyEvent, recordBattery_counters] at hkv
      exact h kv hkv
  | usage d a r now => exact recordUsage_countersWF d a r now h

theorem replay_countersWF (tz : Int) (cap : Nat) (evs : List Event) :
    countersWF (replay tz cap evs) := by
  have init : countersWF (initState tz cap) := by
    intro kv hkv
    simp [initState] at hkv
  rw [replay]
  generalize initState tz cap = st0 at init ⊢
  induction evs generalizing st0 with
  | nil => exact init
  | cons e tl ih => exact ih _ (applyEvent_countersWF e init)

theorem getDailyStats_wf {st : RecorderState} (h : countersWF st) (d : String)
    (date now : Nat) : statsWF (getDailyStats st d date now) := by
  have hbase : statsWF ((alookup st.counters (d, localDay st.tz date)).getD zeroStats) := by
    cases hl : alookup st.counters (d, localDay st.tz date) with
    | none => exact zeroStats_wf
    | some v => exact h _ (alookup_mem hl)
  unfold getDailyStats
  dsimp only
  split <;>
    first
      | exact hbase
      | exact mergeStats_wf _ hbase
      | (split <;>
          first
            | exact hbase
            | exact mergeStats_wf _ hbase)

/-! ## Session state machine lemmas -/

theorem openCount_cons (dq : String) (s : Session) (ss : List Session) :
    openCount dq (s :: ss) = (if isOpenFor dq s then 1 else 0) + openCount dq ss := by
  simp only [openCount, List.filter_cons]
  split <;> simp [Nat.add_comm]

theorem openCount_closeAll (d dq : String) (t : Nat) (ss : List Session) :
    openCount dq (closeAll d t ss) = if dq = d then 0 else openCount dq ss := by
  induction ss with
  | nil => simp [openCount, closeAll]
  | cons s tl ih =>
      simp only [closeAll, List.map_cons] at ih ⊢
      by_cases hs : isOpenFor d s = true
      · obtain ⟨hdev, hend⟩ : s.device = d ∧ s.endedAt = none := by
          simpa [isOpenFor] using hs
        have h1 : isOpenFor dq { s with endedAt := some t } = false := by
          simp [isOpenFor]
        rw [if_pos hs, openCount_cons, h1]
        by_cases hdq : dq = d
        · simpa [hdq] using ih
        · have h2 : isOpenFor dq s = false := by
            simp [isOpenFor, hdev]
            exact fun h => absurd h.symm hdq
          rw [openCount_cons, h2]
          simpa [hdq] using ih
      · rw [if_neg hs, openCount_cons, openCount_cons]
        by_cases hdq : dq = d
        · subst hdq
          have h2 : isOpenFor dq s = false := by simpa using hs
          rw [h2]
          simpa using ih
        · simp only [if_neg hdq] at ih
          rw [ih]
          simp [hdq]

theorem findOpen_none_openCount {d : String} {ss : List Session}
    (h : findOpen d ss = none) : openCount d ss = 0 := by
  unfold findOpen at h
  rw [List.find?_eq_none] at h
  unfold openCount
  rw [List.filter_eq_nil_iff.mpr (by intro a ha; simpa using h a ha)]
  rfl

/-- The one-open-session invariant, over every device at once. -/
def sessionsInv (ss : List Session) : Prop :=
  ∀ d, openCount d ss ≤ 1

theorem recordBattery_sessions (d : String) (lv : Int) (ch : Bool) (now : Nat)
    (st : RecorderState) : (recordBattery d lv ch now st).sessions = st.sessions := by
  unfold recordBattery
  split <;> rfl

theorem recordUsage_sessionsInv (d : String) (a : Option String) (r : Option Bool)
    (now : Nat) {st : RecorderState} (h : sessionsInv st.sessions) :
    sessionsInv (recordUsage d a r now st).sessions := by
  unfold recordUsage
  dsimp only
  split
  · exact h
  · split
    · -- running = some false
      split
      · split
        · -- close the open session
          intro dq
          show openCount dq (closeAll d now st.sessions) ≤ 1
          rw [openCount_closeAll]
          split
          · exact Nat.zero_le 1
          · exact h dq
        · exact h
      · exact h
    · -- running true or absent
      split
      · -- no open session: open a new one
        rename_i hnone
        intro dq
        rw [openCount_cons]
        by_cases hdq : dq = d
        · subst hdq
          have : openCount dq st.sessions = 0 := findOpen_none_openCount hnone
          simp [isOpenFor, this]
        · have : isOpenFor dq { device := d, appName := a.getD "", startedAt := now, endedAt := none } = false := by
            simp [isOpenFor]
            exact fun hc => hdq hc.symm
          rw [this]
          simpa using h dq
      · split
        · exact h
        · -- close the prior session and open a new one
          intro dq
          rw [openCount_cons]
          show (if isOpenFor dq _ then 1 else 0) + openCount dq (closeAll d now st.sessions) ≤ 1
          rw [openCount_closeAll]
          by_cases hdq : dq = d
          · simp [hdq, isOpenFor]
          · have : isOpenFor dq { device := d, appName := a.getD "", startedAt := now, endedAt := none } = false := by
              simp [isOpenFor]
              exact fun hc => hdq hc.symm
            rw [this, if_neg hdq]
            simpa using h dq

theorem applyEvent_sessionsInv {st : RecorderState} (e : Event)
    (h : sessionsInv st.sessions) : sessionsInv (applyEvent st e).sessions := by
  cases e with
  | battery d lv ch now =>
      rw [applyEvent, recordBattery_sessions]
      exact h
  | usage d a r now => exact recordUsage_sessionsInv d a r now h

theorem replay_sessionsInv (tz : Int) (cap : Nat) (evs : List Event) :
    sessionsInv (replay tz cap evs).sessions := by
  have init : sessionsInv (initState tz cap).sessions := by
    intro d
    simp [initState, openCount]
  rw [replay]
  generalize initState tz cap = st0 at init ⊢
  induction evs generalizing st0 with
  | nil => exact init
  | cons e tl ih => exact ih _ (applyEvent_sessionsInv e init)

/-! ## Field-preservation lemmas -/

theorem recordBattery_buffers (d : String) (lv : Int) (ch : Bool) (now : Nat)
    (st : RecorderState) : (recordBattery d lv ch now st).buffers = st.buffers := by
  unfold recordBattery
  split <;> rfl

theorem recordUsage_battery (d : String) (a : Option String) (r : Option Bool)
    (now : Nat) (st : RecorderState) : (recordUsage d a r now st).battery = st.battery := by
  unfold recordUsage
  dsimp only
  split
  · rfl
  · split
    · split
      · split <;> rfl
      · rfl
    · split
      · rfl
      · split <;> rfl

theorem recordBattery_valid_battery (d : String) (lv : Int) (ch : Bool) (now : Nat)
    (st : RecorderState) (h : 0 < lv ∧ lv ≤ 100) :
    (recordBattery d lv ch now st).battery =
      setAssoc st.battery d { level := lv, charging := ch, observedAt := now } := by
  unfold recordBattery
  rw [if_pos h]

theorem alookup_setAssoc_self {α β : Type} [DecidableEq α] (m : List (α × β)) (k : α)
    (v : β) : alookup (setAssoc m k v) k = some v := by
  unfold setAssoc
  rw [alookup_updAssoc]
  simp

theorem recordUsage_buffers_other (d dq : String) (a : Option String) (r : Option Bool)
    (now : Nat) (st : RecorderState) (hne : dq ≠ d) :
    alookup (recordUsage d a r now st).buffers dq = alookup st.buffers dq := by
  unfold recordUsage
  dsimp only
  have hupd : alookup (updAssoc st.buffers d [] (fun l => pushEntry st.cap l { appName := a, timestamp := now, running := r })) dq = alookup st.buffers dq := by
    rw [alookup_updAssoc, if_neg hne]
  split
  · rfl
  · split
    · split
      · split
        · exact hupd
        · exact hupd
      · exact hupd
    · split
      · exact hupd
      · split
        · exact hupd
        · exact hupd

theorem batteryStep_out (d : String) {lv : Int} (ch : Option Bool) (now : Nat)
    (st : RecorderState) (h : lv ≤ 0 ∨ 100 < lv) :
    batteryStep d (some lv) ch now st = st := by
  simp only [batteryStep]
  rw [if_neg (by omega)]

theorem batteryStep_sessions (d : String) (b : Option Int) (ch : Option Bool) (now : Nat)
    (st : RecorderState) : (batteryStep d b ch now st).sessions = st.sessions := by
  unfold batteryStep
  split
  · split
    · rw [recordBattery_sessions]
    · rfl
  · rfl

theorem batteryStep_buffers (d : String) (b : Option Int) (ch : Option Bool) (now : Nat)
    (st : RecorderState) : (batteryStep d b ch now st).buffers = st.buffers := by
  unfold batteryStep
  split
  · split
    · rw [recordBattery_buffers]
    · rfl
  · rfl

theorem batteryStep_counters (d : String) (b : Option Int) (ch : Option Bool) (now : Nat)
    (st : RecorderState) : (batteryStep d b ch now st).counters = st.counters := by
  unfold batteryStep
  split
  · split
    · rw [recordBattery_counters]
    · rfl
  · rfl

/-! ## Claims -/

/-- Claim C1, counterexample: an ingestion request whose app-state part is
invalid (`running = true`, no `app_name`) but which carries a valid battery
level is answered with the 400 `Missing app_name` error, yet the device's
battery state is mutated by the very same request (it was empty before and
holds the sample afterwards), contradicting "no recorder state (neither
usage/session state nor battery state) is mutated by that request". -/
theorem claim1_counterexample :
    (handlePost "s" 1000 { secret := some "s", device := some "dev", app_name := none, running := some true, batteryLevel := some 50, isCharging := some false } (initState 8 30)).1 = .missingAppName
    ∧ getLatestBatteryInfo "dev" (handlePost "s" 1000 { secret := some "s", device := some "dev", app_name := none, running := some true, batteryLevel := some 50, isCharging := some false } (initState 8 30)).2
        = some { level := 50, charging := false, observedAt := 1000 }
    ∧ getLatestBatteryInfo "dev" (initState 8 30) = none := by
  decide

/-- Claim C1 (amended): a request whose app-state part is invalid (`running`
not explicitly `false` while `app_name` is missing or empty) is answered with
the 400 `Missing app_name` error, and no usage/session recorder state
(sessions, recent-event buffers, durable counters) is mutated; a valid
battery sample carried in the same request may however still be recorded
before the rejection. -/
theorem claim1_invalid_app_part (cfg : String) (now : Nat) (body : PostBody)
    (st : RecorderState) (d : String)
    (hsec : body.secret = some cfg)
    (hdev : body.device = some d) (hne : d ≠ "")
    (happ : jsFalsyStr body.app_name = true)
    (hrun : body.running ≠ some false)
    (hpart : body.app_name ≠ none ∨ body.running ≠ none) :
    (handlePost cfg now body st).1 = .missingAppName
    ∧ (handlePost cfg now body st).2.sessions = st.sessions
    ∧ (handlePost cfg now body st).2.buffers = st.buffers
    ∧ (handlePost cfg now body st).2.counters = st.counters := by
  unfold handlePost
  rw [hsec, hdev]
  rw [if_neg (by simp)]
  rw [if_neg (by simp [jsFalsyStr, hne])]
  dsimp only
  rw [if_pos hpart, if_pos ⟨hrun, happ⟩]
  exact ⟨rfl, batteryStep_sessions _ _ _ _ _, batteryStep_buffers _ _ _ _ _,
    batteryStep_counters _ _ _ _ _⟩

/-- Claim C1, witness for the amended theorem at a concrete request. -/
theorem claim1_witness :
    (handlePost "s" 7 { secret := some "s", device := some "d1", app_name := some "", running := none, batteryLevel := none, isCharging := none } (initState 8 30)).1 = .missingAppName
    ∧ (handlePost "s" 7 { secret := some "s", device := some "d1", app_name := some "", running := none, batteryLevel := none, isCharging := none } (initState 8 30)).2.sessions = (initState 8 30).sessions
    ∧ (handlePost "s" 7 { secret := some "s", device := some "d1", app_name := some "", running := none, batteryLevel := none, isCharging := none } (initState 8 30)).2.buffers = (initState 8 30).buffers
    ∧ (handlePost "s" 7 { secret := some "s", device := some "d1", app_name := some "", running := none, batteryLevel := none, isCharging := none } (initState 8 30)).2.counters = (initState 8 30).counters :=
  claim1_invalid_app_part "s" 7 _ (initState 8 30) "d1" rfl rfl (by decide) (by decide)
    (by decide) (by decide)

/-- Claim C2, counterexample: ingestion requests carrying battery level 0 and
battery level 101 both succeed (HTTP 200, `success: true`) instead of being
rejected as `InvalidInput`; no error is surfaced to the caller. -/
theorem claim2_counterexample :
    (handlePost "s" 1000 { secret := some "s", device := some "dev", app_name := none, running := none, batteryLevel := some 0, isCharging := some false } (initState 8 30)).1 = .ok none
    ∧ (handlePost "s" 1000 { secret := some "s", device := some "dev", app_name := none, running := none, batteryLevel := some 101, isCharging := some false } (initState 8 30)).1 = .ok none
    ∧ (handlePost "s" 1000 { secret := some "s", device := some "dev", app_name := none, running := none, batteryLevel := some 0, isCharging := some false } (initState 8 30)).2 = initState 8 30 := by
  decide

/-- Claim C2 (amended): a battery level outside `(0, 100]` is silently
ignored — the level is not stored, the device's prior battery state is left
unchanged, and the request behaves exactly as if no battery level had been
supplied; no error is signalled on account of the level. -/
theorem claim2_out_of_range_ignored (cfg : String) (now : Nat) (body : PostBody)
    (st : RecorderState) (lv : Int)
    (hlv : body.batteryLevel = some lv) (hout : lv ≤ 0 ∨ 100 < lv) :
    handlePost cfg now body st = handlePost cfg now { body with batteryLevel := none } st
    ∧ (handlePost cfg now body st).2.battery = st.battery := by
  have hb : ∀ dv, batteryStep dv body.batteryLevel body.isCharging now st = st := by
    intro dv
    rw [hlv]
    exact batteryStep_out dv body.isCharging now st hout
  constructor
  · unfold handlePost
    dsimp only
    rw [hb]
    rfl
  · unfold handlePost
    dsimp only
    rw [hb]
    split
    · rfl
    · split
      · rfl
      · split
        · split
          · rfl
          · exact recordUsage_battery _ _ _ _ _
        · rfl

/-- Claim C2, witness for the amended theorem at a concrete request. -/
theorem claim2_witness :
    handlePost "s" 5 { secret := some "s", device := some "d1", app_name := some "x", running := none, batteryLevel := some 101, isCharging := some true } (initState 8 30)
      = handlePost "s" 5 { secret := some "s", device := some "d1", app_name := some "x", running := none, batteryLevel := none, isCharging := some true } (initState 8 30)
    ∧ (handlePost "s" 5 { secret := some "s", device := some "d1", app_name := some "x", running := none, batteryLevel := some 101, isCharging := some true } (initState 8 30)).2.battery = (initState 8 30).battery :=
  claim2_out_of_range_ignored "s" 5 _ (initState 8 30) 101 rfl (by decide)

theorem batteryStep_lookup (d : String) (lv : Int) (ch : Option Bool) (now : Nat)
    (st : RecorderState) (h : 0 < lv ∧ lv ≤ 100) :
    getLatestBatteryInfo d (batteryStep d (some lv) ch now st)
      = some { level := lv, charging := decide (ch = some true), observedAt := now } := by
  simp only [batteryStep]
  rw [if_pos h]
  unfold getLatestBatteryInfo
  rw [recordBattery_valid_battery _ _ _ _ _ h, alookup_setAssoc_self]

/-- Claim C5: a daily-stats query for a device that has no durable counters
for the requested day and no open session returns exactly the zero-valued
structure as a successful result — never an error, a 403/404, or an absent
response. -/
theorem claim5_zero_result (env : Option String) (st : RecorderState) (d : String)
    (s : String) (parse : String → Option Nat) (now date : Nat)
    (hdev : d ≠ "summary")
    (hparse : parse s = some date)
    (hcnt : alookup st.counters (d, localDay st.tz date) = none)
    (hopen : findOpen d st.sessions = none) :
    handleStats env d (some s) parse now st = .ok zeroStats := by
  have hallow : isSummaryAllowed env d = true := by
    simp [isSummaryAllowed, hdev]
  have hdaily : getDailyStats st d date now = zeroStats := by
    unfold getDailyStats
    dsimp only
    rw [hcnt]
    simp only [Option.getD_none]
    split
    · rw [hopen]
    · rfl
  unfold handleStats
  rw [if_neg (by simp [hallow])]
  dsimp only
  rw [hparse]
  unfold statsResponse
  dsimp only
  rw [if_neg hdev, hdaily]
  simp only [ite_self]

/-- Claim C5, witness at a concrete empty state. -/
theorem claim5_witness :
    handleStats none "dev" (some "2024-01-01") (fun _ => some 42) 0 (initState 8 30)
      = .ok zeroStats :=
  claim5_zero_result none (initState 8 30) "dev" "2024-01-01" (fun _ => some 42) 0 42
    (by decide) rfl rfl rfl

/-- Claim C6: for an authorised daily-stats query, a date parameter the host
date parser cannot parse is answered with the 400 invalid-date error, and a
missing date parameter makes the query run against the current instant
instead of failing. -/
theorem claim6_bad_date (env : Option String) (deviceId : String)
    (parse : String → Option Nat) (now : Nat) (st : RecorderState)
    (hallow : isSummaryAllowed env deviceId = true) :
    (∀ s, parse s = none → handleStats env deviceId (some s) parse now st = .invalidDate)
    ∧ handleStats env deviceId none parse now st = .ok (statsResponse st deviceId now now) := by
  constructor
  · intro s hs
    unfold handleStats
    rw [if_neg (by simp [hallow])]
    dsimp only
    rw [hs]
  · unfold handleStats
    rw [if_neg (by simp [hallow])]

/-- Claim C6, witness at a concrete query. -/
theorem claim6_witness :
    handleStats none "dev" (some "zz") (fun _ => none) 3 (initState 8 30) = .invalidDate
    ∧ handleStats none "dev" none (fun _ => none) 3 (initState 8 30)
        = .ok (statsResponse (initState 8 30) "dev" 3 3) :=
  ⟨(claim6_bad_date none "dev" (fun _ => none) 3 (initState 8 30) (by decide)).1 "zz" rfl,
   (claim6_bad_date none "dev" (fun _ => none) 3 (initState 8 30) (by decide)).2⟩

/-- Claim C8: a valid ingestion request recording battery level 55 with
`charging = true` is answered with a read-back battery info of exactly level
55 and charging `true`, the stored state reads back the same, and the
observation instant is no earlier than the call time. -/
theorem claim8_battery_roundtrip (cfg : String) (now : Nat) (d : String)
    (st : RecorderState) (hd : d ≠ "") :
    ∃ t, (handlePost cfg now { secret := some cfg, device := some d, app_name := none, running := none, batteryLevel := some 55, isCharging := some true } st).1
          = .ok (some { level := 55, charging := true, observedAt := t })
      ∧ getLatestBatteryInfo d (handlePost cfg now { secret := some cfg, device := some d, app_name := none, running := none, batteryLevel := some 55, isCharging := some true } st).2
          = some { level := 55, charging := true, observedAt := t }
      ∧ now ≤ t := by
  refine ⟨now, ?_, ?_, le_rfl⟩
  · unfold handlePost
    rw [if_neg (by simp)]
    rw [if_neg (by simp [jsFalsyStr, hd])]
    dsimp only
    rw [if_neg (by simp)]
    simp only [Option.getD_some]
    rw [batteryStep_lookup d 55 (some true) now st (by omega)]
    rfl
  · unfold handlePost
    rw [if_neg (by simp)]
    rw [if_neg (by simp [jsFalsyStr, hd])]
    dsimp only
    rw [if_neg (by simp)]
    simp only [Option.getD_some]
    rw [batteryStep_lookup d 55 (some true) now st (by omega)]
    rfl

/-- Claim C8, witness at a concrete request. -/
theorem claim8_witness :
    ∃ t, (handlePost "k" 3 { secret := some "k", device := some "phone", app_name := none, running := none, batteryLevel := some 55, isCharging := some true } (initState 8 30)).1
          = .ok (some { level := 55, charging := true, observedAt := t })
      ∧ getLatestBatteryInfo "phone" (handlePost "k" 3 { secret := some "k", device := some "phone", app_name := none, running := none, batteryLevel := some 55, isCharging := some true } (initState 8 30)).2
          = some { level := 55, charging := true, observedAt := t }
      ∧ 3 ≤ t :=
  claim8_battery_roundtrip "k" 3 "phone" (initState 8 30) (by decide)

/-- Claim C9: the fleet-wide aggregation is addressed by the literal device
id `"summary"` on the daily, weekly, and monthly endpoints; when the
`WEB_SUMMARY` flag does not parse as truthy every `"summary"` query is
rejected with 403, when it does the `"summary"` queries run the all-devices
aggregation, and a device literally named `"summary"` is never dispatched to
an individual-device query on these endpoints. -/
theorem claim9_summary_sentinel (env : Option String) (qd : Option String)
    (parse : String → Option Nat) (now : Nat) (st : RecorderState)
    (qOffset qApp : Option String) :
    (parseBoolean env false = false →
        handleStats env "summary" qd parse now st = .forbidden
      ∧ handleWeekly env "summary" qOffset qApp = .forbidden
      ∧ handleMonthly env "summary" qOffset qApp = .forbidden)
    ∧ (parseBoolean env false = true →
        handleWeekly env "summary" qOffset qApp
          = .summaryStats (jsAppName qApp) (jsOffset qOffset)
      ∧ handleMonthly env "summary" qOffset qApp
          = .summaryStats (jsAppName qApp) (jsOffset qOffset)
      ∧ ∀ s date, parse s = some date →
          handleStats env "summary" (some s) parse now st
            = .ok (statsResponse st "summary" date now))
    ∧ (∀ d a o, handleWeekly env "summary" qOffset qApp ≠ .deviceStats d a o)
    ∧ (∀ d a o, handleMonthly env "summary" qOffset qApp ≠ .deviceStats d a o) := by
  have hsum : isSummaryAllowed env "summary" = parseBoolean env false := by
    simp [isSummaryAllowed]
  refine ⟨?_, ?_, ?_, ?_⟩
  · intro hfalse
    refine ⟨?_, ?_, ?_⟩
    · unfold handleStats
      rw [if_pos (by simp [hsum, hfalse])]
    · unfold handleWeekly
      rw [if_pos (by simp [hsum, hfalse])]
    · unfold handleMonthly
      rw [if_pos (by simp [hsum, hfalse])]
  · intro htrue
    refine ⟨?_, ?_, ?_⟩
    · unfold handleWeekly
      rw [if_neg (by simp [hsum, htrue])]
      unfold periodDispatch
      rw [if_pos rfl]
    · unfold handleMonthly
      rw [if_neg (by simp [hsum, htrue])]
      unfold periodDispatch
      rw [if_pos rfl]
    · intro s date hp
      unfold handleStats
      rw [if_neg (by simp [hsum, htrue])]
      dsimp only
      rw [hp]
  · intro d a o
    unfold handleWeekly
    by_cases hb : parseBoolean env false = true
    · rw [if_neg (by simp [hsum, hb])]
      unfold periodDispatch
      rw [if_pos rfl]
      simp
    · rw [if_pos (by simp [hsum]; simpa using hb)]
      simp
  · intro d a o
    unfold handleMonthly
    by_cases hb : parseBoolean env false = true
    · rw [if_neg (by simp [hsum, hb])]
      unfold periodDispatch
      rw [if_pos rfl]
      simp
    · rw [if_pos (by simp [hsum]; simpa using hb)]
      simp

/-- Claim C9, witness: with `WEB_SUMMARY` unset the `"summary"` queries are
forbidden; with `WEB_SUMMARY=yes` the weekly query runs the summary
aggregation. -/
theorem claim9_witness :
    handleStats none "summary" none (fun _ => none) 0 (initState 8 30) = .forbidden
    ∧ handleWeekly none "summary" none none = .forbidden
    ∧ handleMonthly none "summary" none none = .forbidden
    ∧ handleWeekly (some "yes") "summary" (some "2") none = .summaryStats none 2
    ∧ (∀ d a o, handleWeekly none "summary" none none ≠ .deviceStats d a o) := by
  obtain ⟨h1, _, h3, h4⟩ :=
    claim9_summary_sentinel none none (fun _ => none) 0 (initState 8 30) none none
  obtain ⟨g1, g2, _, _⟩ :=
    claim9_summary_sentinel (some "yes") none (fun _ => none) 0 (initState 8 30) (some "2") none
  obtain ⟨ha, hb, hc⟩ := h1 (by decide)
  refine ⟨ha, hb, hc, ?_, h3⟩
  exact ((g2 (by decide)).1).trans (by decide)

/-- Claim C10: on the weekly and monthly endpoints a missing or unparseable
offset query value is silently treated as offset 0 (no error), and a value
`parseInt` does parse selects exactly that offset. -/
theorem claim10_offset_parsing (env : Option String) (deviceId : String)
    (qApp : Option String) (hallow : isSummaryAllowed env deviceId = true) :
    (handleWeekly env deviceId none qApp = periodDispatch deviceId qApp 0
      ∧ handleMonthly env deviceId none qApp = periodDispatch deviceId qApp 0)
    ∧ (∀ s, jsParseInt s = none →
        handleWeekly env deviceId (some s) qApp = periodDispatch deviceId qApp 0
        ∧ handleMonthly env deviceId (some s) qApp = periodDispatch deviceId qApp 0)
    ∧ (∀ s v, jsParseInt s = some v →
        handleWeekly env deviceId (some s) qApp = periodDispatch deviceId qApp v
        ∧ handleMonthly env deviceId (some s) qApp = periodDispatch deviceId qApp v) := by
  refine ⟨⟨?_, ?_⟩, ?_, ?_⟩
  · unfold handleWeekly
    rw [if_neg (by simp [hallow])]
    rfl
  · unfold handleMonthly
    rw [if_neg (by simp [hallow])]
    rfl
  · intro s hs
    constructor
    · unfold handleWeekly
      rw [if_neg (by simp [hallow])]
      simp only [jsOffset, hs]
    · unfold handleMonthly
      rw [if_neg (by simp [hallow])]
      simp only [jsOffset, hs]
  · intro s v hs
    constructor
    · unfold handleWeekly
      rw [if_neg (by simp [hallow])]
      simp only [jsOffset, hs]
    · unfold handleMonthly
      rw [if_neg (by simp [hallow])]
      simp only [jsOffset, hs]

/-- Claim C10, witness: a missing and a non-numeric `weekOffset` both select
offset 0, a numeric one selects its value, at a concrete device. -/
theorem claim10_witness :
    (handleWeekly none "dev" none none = periodDispatch "dev" none 0
      ∧ handleMonthly none "dev" none none = periodDispatch "dev" none 0)
    ∧ (handleWeekly none "dev" (some "abc") none = periodDispatch "dev" none 0)
    ∧ (handleWeekly none "dev" (some "-3") none = periodDispatch "dev" none (-3)) := by
  obtain ⟨h0, h1, h2⟩ := claim10_offset_parsing none "dev" none (by decide)
  exact ⟨h0, (h1 "abc" (by decide)).1, (h2 "-3" (-3) (by decide)).1⟩

/-- Claim C3: starting from `NoSession`, after any sequence of recorded
events at most one usage session is open per device at any instant, and the
per-device session state is either no open session or a single open session
of that device. -/
theorem claim3_single_open_session (tz : Int) (cap : Nat) (evs : List Event) (d : String) :
    openCount d (replay tz cap evs).sessions ≤ 1
    ∧ (findOpen d (replay tz cap evs).sessions = none
        ∨ ∃ s, findOpen d (replay tz cap evs).sessions = some s
            ∧ s.device = d ∧ s.endedAt = none)
    ∧ findOpen d (initState tz cap).sessions = none := by
  refine ⟨replay_sessionsInv tz cap evs d, ?_, rfl⟩
  cases h : findOpen d (replay tz cap evs).sessions with
  | none => exact Or.inl rfl
  | some s =>
      right
      refine ⟨s, rfl, ?_⟩
      have hp := List.find?_some (by simpa [findOpen] using h)
      simpa [isOpenFor] using hp

/-- Claim C4: the all-devices daily statistics equal the element-wise sum of
the per-device daily statistics over every device in the devices listing —
for the total, every per-app entry, every hourly slot, and every per-app
hourly slot (a device with zero usage contributes only zeros). -/
theorem claim4_summary_is_sum (tz : Int) (cap : Nat) (evs : List Event) (date now : Nat) :
    (getDailyStatsForAllDevices (replay tz cap evs) date now).totalUsage
        = ((getDevices (replay tz cap evs)).map
            (fun d => (getDailyStats (replay tz cap evs) d date now).totalUsage)).sum
    ∧ (∀ app, appD (getDailyStatsForAllDevices (replay tz cap evs) date now).appStats app
        = ((getDevices (replay tz cap evs)).map
            (fun d => appD (getDailyStats (replay tz cap evs) d date now).appStats app)).sum)
    ∧ (∀ i, i < 24 →
        hourD (getDailyStatsForAllDevices (replay tz cap evs) date now).hourlyStats i
        = ((getDevices (replay tz cap evs)).map
            (fun d => hourD (getDailyStats (replay tz cap evs) d date now).hourlyStats i)).sum)
    ∧ (∀ app i, i < 24 →
        appHourD (getDailyStatsForAllDevices (replay tz cap evs) date now).appHourlyStats app i
        = ((getDevices (replay tz cap evs)).map
            (fun d => appHourD (getDailyStats (replay tz cap evs) d date now).appHourlyStats app i)).sum) := by
  have hwf : ∀ d ∈ getDevices (replay tz cap evs),
      statsWF (getDailyStats (replay tz cap evs) d date now) :=
    fun d _ => getDailyStats_wf (replay_countersWF tz cap evs) d date now
  obtain ⟨ht, ha, hh, hah⟩ :=
    foldMerge_observables (fun d => getDailyStats (replay tz cap evs) d date now)
      (getDevices (replay tz cap evs)) zeroStats hwf
  refine ⟨?_, ?_, ?_, ?_⟩
  · simpa [getDailyStatsForAllDevices, zeroStats] using ht
  · intro app
    simpa [getDailyStatsForAllDevices, zeroStats_appD] using ha app
  · intro i hi
    simpa [getDailyStatsForAllDevices, zeroStats_hourD] using hh i hi
  · intro app i hi
    simpa [getDailyStatsForAllDevices, zeroStats_appHourD] using hah app i hi

/-- Claim C4, witness: the slot equation instantiated in a concrete replayed
state in which one session was closed and one device is battery-only. -/
theorem claim4_witness :
    (3 : Nat) < 24
    ∧ hourD (getDailyStatsForAllDevices (replay 8 30 [.usage "a" (some "x") none 5, .usage "a" (some "x") (some false) 65, .battery "b" 40 true 70]) 100 100).hourlyStats 3
        = ((getDevices (replay 8 30 [.usage "a" (some "x") none 5, .usage "a" (some "x") (some false) 65, .battery "b" 40 true 70])).map
            (fun d => hourD (getDailyStats (replay 8 30 [.usage "a" (some "x") none 5, .usage "a" (some "x") (some false) 65, .battery "b" 40 true 70]) d 100 100).hourlyStats 3)).sum :=
  ⟨by decide,
   (claim4_summary_is_sum 8 30 [.usage "a" (some "x") none 5, .usage "a" (some "x") (some false) 65, .battery "b" 40 true 70] 100 100).2.2.1 3 (by decide)⟩

theorem foldl_buffers_none {d : String} (evs : List Event) (st0 : RecorderState)
    (h0 : alookup st0.buffers d = none) (hno : ∀ e ∈ evs, eventDevice e ≠ d) :
    alookup (evs.foldl applyEvent st0).buffers d = none := by
  induction evs generalizing st0 with
  | nil => exact h0
  | cons e tl ih =>
      refine ih (applyEvent st0 e) ?_ (fun e' he' => hno e' (by simp [he']))
      cases e with
      | battery d0 lv ch now =>
          rw [applyEvent, recordBattery_buffers]
          exact h0
      | usage d0 a r now =>
          have h1 : d0 ≠ d := by
            simpa [eventDevice] using hno (Event.usage d0 a r now) (by simp)
          rw [applyEvent, recordUsage_buffers_other d0 d a r now st0 h1.symm]
          exact h0

/-- Claim C7: the recent-switches query returns the device's raw recent-event
buffer mapped to the output shape, in which the effective running flag is
true unless the stored event explicitly carried `running = false`; a device
for which no event was ever recorded yields the empty list. -/
theorem claim7_recent_buffer (st : RecorderState) (d : String) (tz : Int) (cap : Nat)
    (evs : List Event) (hno : ∀ e ∈ evs, eventDevice e ≠ d) :
    handleRecent st d = (bufferOf st d).map
        (fun e => { appName := e.appName, timestamp := e.timestamp, running := e.running != some false })
    ∧ handleRecent (replay tz cap evs) d = [] := by
  constructor
  · unfold handleRecent bufferOf
    cases h : alookup st.buffers d with
    | none => simp
    | some entries => simp
  · unfold handleRecent
    rw [replay, foldl_buffers_none evs (initState tz cap) rfl hno]

/-- Claim C7, witness: a device with one recorded event, and a device with
no events of its own in the replayed history. -/
theorem claim7_witness :
    handleRecent (replay 8 30 [.usage "dev" (some "x") none 5]) "dev"
        = (bufferOf (replay 8 30 [.usage "dev" (some "x") none 5]) "dev").map
            (fun e => { appName := e.appName, timestamp := e.timestamp, running := e.running != some false })
    ∧ handleRecent (replay 8 30 [.usage "other" (some "x") none 5]) "dev" = [] :=
  claim7_recent_buffer (replay 8 30 [.usage "dev" (some "x") none 5]) "dev" 8 30
    [.usage "other" (some "x") none 5] (by decide)
